import Mathlib

/-!
Shallow embedding of `data_extraction/preprocess_gsd_dataset.py`:
the streaming CoNLL-U preprocessor that reconstructs sentence records
(`id`, `words`, `heads`, `relns`), skips compound-span token lines,
and filters records containing CJK ideographic characters.
-/

namespace GSD

/-- Failure outcomes of the script: `valueError` models Python's
`ValueError` (tuple-unpacking mismatch or a bad `int()` literal),
`typeError` models subscripting `None`, `indexError` models `line[0]`
on an empty string. Any error aborts the run before any output file
is written. -/
inductive Err where
  | valueError
  | typeError
  | indexError
deriving Repr, DecidableEq

/-- One preprocessed example, mirroring the dict built in the script:
`{'id': ..., 'words': [...], 'relns': [...], 'heads': [...]}`. -/
structure Ex where
  id : String
  words : List String
  relns : List String
  heads : List Int
deriving Repr, DecidableEq

/-- The characters Python's `str.strip()` removes (ASCII whitespace). -/
def pyIsSpace (c : Char) : Bool :=
  c = ' ' || c = '\t' || c = '\n' || c = '\r' || c = '\x0b' || c = '\x0c'

/-- Python `s.strip()` on ASCII whitespace. -/
def pyStrip (s : String) : String :=
  ⟨((s.data.dropWhile pyIsSpace).reverse.dropWhile pyIsSpace).reverse⟩

/-- Python slice `s[a:b]` for `a ≤ b` (clamps at the string's end). -/
def pySlice (s : String) (a b : Nat) : String :=
  ⟨(s.data.drop a).take (b - a)⟩

/-- Helper for `pySplit`: `acc` holds the current field reversed. -/
def pySplitAux (sep : Char) : List Char → List Char → List String
  | [], acc => [⟨acc.reverse⟩]
  | c :: rest, acc =>
      if c = sep then (⟨acc.reverse⟩ : String) :: pySplitAux sep rest []
      else pySplitAux sep rest (c :: acc)

/-- Python `s.split(sep)` for a one-character separator: splits at every
occurrence, keeping empty fields; `"".split(sep) = [""]`. -/
def pySplit (sep : Char) (s : String) : List String :=
  pySplitAux sep s.data []

/-- Digit run accepted by Python `int()` after the optional sign:
nonempty decimal digits, single underscores allowed between digits. -/
def pyIntDigitsOk : List Char → Bool
  | [] => false
  | [c] => c.isDigit
  | c :: '_' :: rest => c.isDigit && pyIntDigitsOk rest
  | c :: rest => c.isDigit && pyIntDigitsOk rest

/-- Numeric value of a digit run, ignoring grouping underscores. -/
def digitsVal (l : List Char) : Nat :=
  l.foldl (fun acc c => if c = '_' then acc else acc * 10 + (c.toNat - 48)) 0

/-- Python `int(s)` on ASCII decimal strings: strips surrounding
whitespace, allows one optional sign, requires a valid digit run;
otherwise raises `ValueError`. -/
def pyInt (s : String) : Except Err Int :=
  match (pyStrip s).data with
  | '+' :: rest =>
      if pyIntDigitsOk rest then .ok (Int.ofNat (digitsVal rest)) else .error .valueError
  | '-' :: rest =>
      if pyIntDigitsOk rest then .ok (-(Int.ofNat (digitsVal rest))) else .error .valueError
  | l =>
      if pyIntDigitsOk l then .ok (Int.ofNat (digitsVal l)) else .error .valueError

/-- `_is_chinese_char(cp)`: the eight inclusive CJK code-point ranges
tested in the script. -/
def _is_chinese_char (cp : Nat) : Bool :=
  (0x4E00 ≤ cp && cp ≤ 0x9FFF)
    || (0x3400 ≤ cp && cp ≤ 0x4DBF)
    || (0x20000 ≤ cp && cp ≤ 0x2A6DF)
    || (0x2A700 ≤ cp && cp ≤ 0x2B73F)
    || (0x2B740 ≤ cp && cp ≤ 0x2B81F)
    || (0x2B820 ≤ cp && cp ≤ 0x2CEAF)
    || (0xF900 ≤ cp && cp ≤ 0xFAFF)
    || (0x2F800 ≤ cp && cp ≤ 0x2FA1F)

/-- `has_chinese_char(ex)`: true when some character of some word of
`ex['words']` has an ideographic code point. -/
def has_chinese_char (ex : Ex) : Bool :=
  ex.words.any fun word => word.data.any fun char => _is_chinese_char char.toNat

/-- `get_word_data(line, ex)`: split the stripped line on tabs and
unpack into exactly 10 fields (`ValueError` otherwise); skip the line
when the index field contains `-`; otherwise append surface form,
relation and parsed head to the open record (`TypeError` when the
record is `None`, `ValueError` when the head is not an int literal). -/
def get_word_data (line : String) (ex : Option Ex) : Except Err (Option Ex) :=
  match pySplit '\t' (pyStrip line) with
  | [word_id, word, _, _, _, _, head, reln, _, _] =>
      if word_id.data.contains '-' then
        .ok ex
      else
        match ex with
        | none => .error .typeError
        | some e =>
            match pyInt head with
            | .ok n =>
                .ok (some { e with
                  words := e.words ++ [word]
                  relns := e.relns ++ [reln]
                  heads := e.heads ++ [n] })
            | .error er => .error er
  | _ => .error .valueError

/-- Loop state of `get_examples_from_dataset`: the filtered counter,
the accumulated output list, and the currently open record. -/
structure St where
  filtered_examples : Nat
  preprocessed_dataset : List Ex
  ex : Option Ex
deriving Repr, DecidableEq

/-- State at the top of the loop. -/
def initSt : St := { filtered_examples := 0, preprocessed_dataset := [], ex := none }

/-- The id a sentence-identifier comment line produces:
`line.strip().split(' ')[-1]` (split on single space characters;
the split list is never empty, so `[-1]` is its last element). -/
def commentId (line : String) : String :=
  (pySplit ' ' (pyStrip line)).getLastD ""

/-- One iteration of the loop body of `get_examples_from_dataset` on a
single line. -/
def processLine (s : St) (line : String) : Except Err St :=
  if line = "\n" then
    match s.ex with
    | some e =>
        if !has_chinese_char e then
          .ok { s with preprocessed_dataset := s.preprocessed_dataset ++ [e], ex := none }
        else
          .ok { s with filtered_examples := s.filtered_examples + 1, ex := none }
    | none => .ok s
  else
    match line.data with
    | [] => .error .indexError
    | c :: _ =>
        if c = '#' then
          if pySlice line 2 6 ≠ "text" then
            .ok { s with ex := some { id := commentId line, words := [], relns := [], heads := [] } }
          else
            .ok s
        else if c.isDigit then
          match get_word_data line s.ex with
          | .ok ex2 => .ok { s with ex := ex2 }
          | .error er => .error er
        else
          .ok s

/-- Run the loop over the remaining lines. -/
def runLines (s : St) : List String → Except Err St
  | [] => .ok s
  | line :: rest =>
      match processLine s line with
      | .ok s2 => runLines s2 rest
      | .error er => .error er

/-- `get_examples_from_dataset` on the list of lines of the input file
(each line carries its terminator, except possibly the last). On
success it returns the pair that is serialized and reported:
the accepted records and the filtered count. A record still open when
the lines run out is not consulted. An error aborts the run; no output
file is written in that case. -/
def get_examples_from_dataset (lines : List String) : Except Err (List Ex × Nat) :=
  match runLines initSt lines with
  | .ok s => .ok (s.preprocessed_dataset, s.filtered_examples)
  | .error er => .error er

/-- Drop a single trailing `\n` from a line, when present. -/
def dropTrailingNewline (s : String) : String :=
  if s.data.getLast? = some '\n' then ⟨s.data.dropLast⟩ else s

/-- Split a character list into maximal whitespace-free runs,
discarding the whitespace itself (whitespace-separated fields). -/
def wsSplit : List Char → List Char → List String
  | [], acc => if acc.isEmpty then [] else [⟨acc.reverse⟩]
  | c :: rest, acc =>
      if pyIsSpace c then
        if acc.isEmpty then wsSplit rest []
        else (⟨acc.reverse⟩ : String) :: wsSplit rest []
      else wsSplit rest (c :: acc)

/-- The spec's description of the id taken from a sentence-identifier
comment line: the final whitespace-separated field of the line trimmed
of its trailing line terminator. Stated from the spec's words, to be
compared with `commentId`, which embeds the code. -/
def spec_comment_id (line : String) : String :=
  (wsSplit (dropTrailingNewline line).data []).getLastD ""

/-- The end-to-end scenario input of spec section 8, as the line list
`readlines` produces for it: the final line carries no terminator
because the stream ends without a trailing blank line. -/
def section8Lines : List String :=
  [ "# sent_id = s1\n"
  , "# text = Hola mundo\n"
  , "1\tHola\t_\t_\t_\t_\t0\troot\t_\t_\n"
  , "2\tmundo\t_\t_\t_\t_\t1\tobj\t_\t_\n"
  , "\n"
  , "# sent_id = s2\n"
  , "# text = 你好\n"
  , "1\t你好\t_\t_\t_\t_\t0\troot\t_\t_" ]

/-- The record spec section 8 expects to be accepted for `s1`. -/
def s1Record : Ex :=
  { id := "s1", words := ["Hola", "mundo"], relns := ["root", "obj"], heads := [0, 1] }

lemma data_head_cons (line : String) (c : Char) (h : line.data.head? = some c) :
    ∃ t, line.data = c :: t := by
  cases hl : line.data with
  | nil => rw [hl] at h; cases h
  | cons a t =>
      rw [hl] at h
      simp only [List.head?] at h
      obtain rfl : a = c := Option.some_inj.mp h
      exact ⟨t, rfl⟩

lemma line_ne_newline_of_digit (line : String) (c : Char) (t : List Char)
    (hl : line.data = c :: t) (hd : c.isDigit = true) : line ≠ "\n" := by
  intro he
  rw [he] at hl
  have h2 : ('\n' :: [] : List Char) = c :: t := hl
  injection h2 with h3 h4
  rw [← h3] at hd
  exact absurd hd (by decide)

lemma processLine_digit (s : St) (line : String) (c : Char) (t : List Char)
    (hl : line.data = c :: t) (hd : c.isDigit = true) :
    processLine s line =
      match get_word_data line s.ex with
      | .ok ex2 => .ok { s with ex := ex2 }
      | .error er => .error er := by
  have hne := line_ne_newline_of_digit line c t hl hd
  have hh : ¬(c = '#') := by
    intro he; rw [he] at hd; exact absurd hd (by decide)
  unfold processLine
  rw [if_neg hne, hl]
  simp only [hh, if_false, hd, if_true]

lemma processLine_comment (s : St) (line : String) (t : List Char)
    (hl : line.data = '#' :: t) :
    processLine s line =
      (if pySlice line 2 6 ≠ "text" then
        .ok { s with ex := some { id := commentId line, words := [], relns := [], heads := [] } }
      else
        .ok s) := by
  have hne : line ≠ "\n" := by
    intro he; rw [he] at hl
    simp only [List.cons.injEq] at hl
    exact absurd hl.1 (by decide)
  unfold processLine
  rw [if_neg hne, hl]
  simp

lemma processLine_blank_none (s : St) (h : s.ex = none) :
    processLine s "\n" = .ok s := by
  unfold processLine
  rw [if_pos rfl, h]

lemma processLine_blank_some (s : St) (e : Ex) (h : s.ex = some e) :
    processLine s "\n" =
      (if !has_chinese_char e then
        .ok { s with preprocessed_dataset := s.preprocessed_dataset ++ [e], ex := none }
      else
        .ok { s with filtered_examples := s.filtered_examples + 1, ex := none }) := by
  unfold processLine
  rw [if_pos rfl, h]

lemma processLine_other (s : St) (line : String) (c : Char) (t : List Char)
    (hl : line.data = c :: t) (hne : line ≠ "\n") (hc : ¬(c = '#'))
    (hd : ¬(c.isDigit = true)) :
    processLine s line = .ok s := by
  unfold processLine
  rw [if_neg hne, hl]
  simp [hc, hd]

lemma get_word_data_not10 (line : String) (ex : Option Ex)
    (h : (pySplit '\t' (pyStrip line)).length ≠ 10) :
    get_word_data line ex = .error .valueError := by
  unfold get_word_data
  split
  · rename_i word_id word f2 f3 f4 f5 head reln f8 f9 heq
    rw [heq] at h
    simp at h
  · rfl

lemma get_word_data_ok_cases (line : String) (ex ex2 : Option Ex)
    (h : get_word_data line ex = .ok ex2) :
    ex2 = ex ∨ ∃ e word reln n, ex = some e ∧
      ex2 = some { e with
        words := e.words ++ [word], relns := e.relns ++ [reln], heads := e.heads ++ [n] } := by
  unfold get_word_data at h
  split at h
  · rename_i word_id word f2 f3 f4 f5 head reln f8 f9 heq
    split at h
    · cases h; exact Or.inl rfl
    · cases ex with
      | none => cases h
      | some e =>
          cases hp : pyInt head with
          | ok n =>
              rw [hp] at h
              cases h
              exact Or.inr ⟨e, word, reln, n, rfl, rfl⟩
          | error er => rw [hp] at h; cases h
  · cases h

/-- C2: `has_chinese_char` returns true iff some character of some
string in the record's `words` has a code point inside one of the
eight inclusive CJK ranges; the range bounds are exact, so 0x4DBF is
classified ideographic and 0x4DC0 is not. -/
theorem has_chinese_char_iff_cjk_range :
    (∀ ex : Ex, has_chinese_char ex = true ↔
      ∃ w ∈ ex.words, ∃ c ∈ w.data,
        (0x4E00 ≤ c.toNat ∧ c.toNat ≤ 0x9FFF) ∨
        (0x3400 ≤ c.toNat ∧ c.toNat ≤ 0x4DBF) ∨
        (0x20000 ≤ c.toNat ∧ c.toNat ≤ 0x2A6DF) ∨
        (0x2A700 ≤ c.toNat ∧ c.toNat ≤ 0x2B73F) ∨
        (0x2B740 ≤ c.toNat ∧ c.toNat ≤ 0x2B81F) ∨
        (0x2B820 ≤ c.toNat ∧ c.toNat ≤ 0x2CEAF) ∨
        (0xF900 ≤ c.toNat ∧ c.toNat ≤ 0xFAFF) ∨
        (0x2F800 ≤ c.toNat ∧ c.toNat ≤ 0x2FA1F)) ∧
    _is_chinese_char 0x4DBF = true ∧ _is_chinese_char 0x4DC0 = false := by
  refine ⟨fun ex => ?_, by decide, by decide⟩
  simp only [has_chinese_char, _is_chinese_char, List.any_eq_true, Bool.or_eq_true,
    Bool.and_eq_true, decide_eq_true_eq, or_assoc]

/-- C9: the compatibility filter depends only on the `words` field:
two records with equal `words` classify identically (and, being a pure
function of the record, it cannot modify it). -/
theorem has_chinese_char_depends_only_on_words (ex1 ex2 : Ex)
    (h : ex1.words = ex2.words) :
    has_chinese_char ex1 = has_chinese_char ex2 := by
  simp only [has_chinese_char, h]

/-- C4: a token data line whose index field contains `-` leaves the
record untouched, while a line with a plain index (one whose index
field has no `-`) appends its surface form, relation label and parsed
integer head to the end of the respective sequences. -/
theorem compound_lines_skipped_components_appended (line : String) (ex : Option Ex)
    (word_id word f2 f3 f4 f5 head reln f8 f9 : String)
    (hsplit : pySplit '\t' (pyStrip line) =
      [word_id, word, f2, f3, f4, f5, head, reln, f8, f9]) :
    (word_id.data.contains '-' = true → get_word_data line ex = .ok ex) ∧
    (∀ e n, ex = some e → word_id.data.contains '-' = false → pyInt head = .ok n →
      get_word_data line ex = .ok (some { e with
        words := e.words ++ [word], relns := e.relns ++ [reln], heads := e.heads ++ [n] })) := by
  constructor
  · intro hdash
    unfold get_word_data
    rw [hsplit]
    simp only [hdash, if_true]
  · rintro e n rfl hdash hn
    unfold get_word_data
    rw [hsplit]
    simp only [hdash, Bool.false_eq_true, if_false, hn]

theorem compound_lines_skipped_components_appended_witness :
    get_word_data "3-4\tdel\t_\t_\t_\t_\t_\t_\t_\t_\n" (some (Ex.mk "s" [] [] [])) =
      .ok (some (Ex.mk "s" [] [] [])) ∧
    get_word_data "3\tde\t_\t_\t_\t_\t1\tcase\t_\t_\n" (some (Ex.mk "s" [] [] [])) =
      .ok (some (Ex.mk "s" ["de"] ["case"] [1])) :=
  ⟨(compound_lines_skipped_components_appended
      "3-4\tdel\t_\t_\t_\t_\t_\t_\t_\t_\n" (some (Ex.mk "s" [] [] []))
      "3-4" "del" "_" "_" "_" "_" "_" "_" "_" "_" rfl).1 rfl,
   (compound_lines_skipped_components_appended
      "3\tde\t_\t_\t_\t_\t1\tcase\t_\t_\n" (some (Ex.mk "s" [] [] []))
      "3" "de" "_" "_" "_" "_" "1" "case" "_" "_" rfl).2
      (Ex.mk "s" [] [] []) 1 rfl rfl rfl⟩

/-- C8 counterexample: a well-formed compound-span token line arriving
while no record is open is processed without any error: the state is
returned unchanged, contradicting the claim that every orphan token
line raises an error. -/
theorem orphan_compound_line_no_error :
    initSt.ex = none ∧
    processLine initSt "1-2\tdel\t_\t_\t_\t_\t_\t_\t_\t_\n" = .ok initSt :=
  ⟨rfl, rfl⟩

/-- C8 amended: an orphan token line (first character a digit, no open
record) raises `TypeError` on the absent record only when it has 10
tab-separated fields and a plain (non-compound) index; a 10-field
compound-span line returns before touching the record and is silently
skipped; a line without exactly 10 fields raises `ValueError` instead. -/
theorem orphan_token_line_outcomes (s : St) (line : String) (c : Char)
    (hd : line.data.head? = some c) (hdig : c.isDigit = true) (hex : s.ex = none) :
    (∀ word_id word f2 f3 f4 f5 head reln f8 f9,
       pySplit '\t' (pyStrip line) = [word_id, word, f2, f3, f4, f5, head, reln, f8, f9] →
       (word_id.data.contains '-' = true → processLine s line = .ok s) ∧
       (word_id.data.contains '-' = false → processLine s line = .error .typeError)) ∧
    ((pySplit '\t' (pyStrip line)).length ≠ 10 → processLine s line = .error .valueError) := by
  obtain ⟨t, hl⟩ := data_head_cons line c hd
  have hpl := processLine_digit s line c t hl hdig
  constructor
  · intro word_id word f2 f3 f4 f5 head reln f8 f9 hsplit
    constructor
    · intro hdash
      rw [hpl]
      have hgw : get_word_data line s.ex = .ok s.ex := by
        unfold get_word_data
        rw [hsplit]
        simp only [hdash, if_true]
      rw [hgw]
    · intro hdash
      rw [hpl]
      have hgw : get_word_data line s.ex = .error .typeError := by
        unfold get_word_data
        rw [hsplit, hex]
        simp only [hdash, Bool.false_eq_true, if_false]
      rw [hgw]
  · intro hlen
    rw [hpl, get_word_data_not10 line s.ex hlen]

theorem orphan_token_line_outcomes_witness :
    processLine initSt "1\tHola\t_\t_\t_\t_\t0\troot\t_\t_\n" = .error .typeError ∧
    processLine initSt "1\tHola\n" = .error .valueError :=
  ⟨((orphan_token_line_outcomes initSt "1\tHola\t_\t_\t_\t_\t0\troot\t_\t_\n" '1'
      rfl (by decide) rfl).1
      "1" "Hola" "_" "_" "_" "_" "0" "root" "_" "_" rfl).2 rfl,
   (orphan_token_line_outcomes initSt "1\tHola\n" '1' rfl (by decide) rfl).2 (by decide)⟩

/-- C7 counterexample: the comment line `"# a b\tc\n"` (not a `text`
line) creates a record, but its id is `"b\tc"` — the final field of a
split on single space characters — not `"c"`, the final
whitespace-separated field the claim prescribes. -/
theorem comment_id_not_whitespace_field :
    processLine initSt "# a b\tc\n" =
      .ok { initSt with ex := some (Ex.mk "b\tc" [] [] []) } ∧
    spec_comment_id "# a b\tc\n" = "c" ∧
    ("b\tc" : String) ≠ "c" :=
  ⟨rfl, rfl, by decide⟩

/-- C7 amended: on a comment line, a `text` tag in characters 2..5
leaves the state unchanged; any other comment line creates a fresh
record whose id is the final field of the stripped line split on
single space characters, with empty `words`/`relns`/`heads`; and the
only ways the open-record slot changes on any line are: unchanged,
reset to none, created fresh by such a comment line, or extended by
one word on a token line. -/
theorem comment_line_handling (s s2 : St) (line : String)
    (hok : processLine s line = .ok s2) :
    (line.data.head? = some '#' → pySlice line 2 6 = "text" → s2 = s) ∧
    (line.data.head? = some '#' → pySlice line 2 6 ≠ "text" →
      s2 = { s with ex := some (Ex.mk (commentId line) [] [] []) }) ∧
    (s2.ex = s.ex ∨ s2.ex = none ∨
      (line.data.head? = some '#' ∧ pySlice line 2 6 ≠ "text" ∧
        s2.ex = some (Ex.mk (commentId line) [] [] [])) ∨
      (∃ e word reln n, s.ex = some e ∧
        s2.ex = some { e with
          words := e.words ++ [word], relns := e.relns ++ [reln], heads := e.heads ++ [n] })) := by
  by_cases hne : line = "\n"
  · subst hne
    refine ⟨fun hd _ => absurd hd (by decide), fun hd _ => absurd hd (by decide), ?_⟩
    cases hx : s.ex with
    | none =>
        rw [processLine_blank_none s hx] at hok
        cases hok
        exact Or.inl hx
    | some e =>
        rw [processLine_blank_some s e hx] at hok
        cases hb : has_chinese_char e with
        | false =>
            rw [hb] at hok
            rw [if_pos (show (!false) = true from rfl)] at hok
            cases hok
            exact Or.inr (Or.inl rfl)
        | true =>
            rw [hb] at hok
            rw [if_neg (by decide)] at hok
            cases hok
            exact Or.inr (Or.inl rfl)
  · cases hl : line.data with
    | nil =>
        unfold processLine at hok
        rw [if_neg hne, hl] at hok
        cases hok
    | cons c t =>
        by_cases hc : c = '#'
        · subst hc
          have hpc := processLine_comment s line t hl
          rw [hpc] at hok
          by_cases htxt : pySlice line 2 6 = "text"
          · rw [if_neg (not_not_intro htxt)] at hok
            cases hok
            exact ⟨fun _ _ => rfl, fun _ h => absurd htxt h, Or.inl rfl⟩
          · rw [if_pos htxt] at hok
            cases hok
            exact ⟨fun _ h => absurd h htxt, fun _ _ => rfl,
              Or.inr (Or.inr (Or.inl ⟨rfl, htxt, rfl⟩))⟩
        · refine ⟨fun h _ => absurd (Option.some_inj.mp h) hc,
            fun h _ => absurd (Option.some_inj.mp h) hc, ?_⟩
          by_cases hdig : c.isDigit = true
          · rw [processLine_digit s line c t hl hdig] at hok
            cases hg : get_word_data line s.ex with
            | ok ex2 =>
                rw [hg] at hok
                cases hok
                rcases get_word_data_ok_cases line s.ex ex2 hg with h1 | ⟨e, w, r, n, he, h2⟩
                · exact Or.inl h1
                · exact Or.inr (Or.inr (Or.inr ⟨e, w, r, n, he, h2⟩))
            | error er => rw [hg] at hok; cases hok
          · rw [processLine_other s line c t hl hne hc hdig] at hok
            cases hok
            exact Or.inl rfl

theorem comment_line_handling_witness :
    { initSt with ex := some (Ex.mk "s1" [] [] []) } =
      { initSt with ex := some (Ex.mk (commentId "# sent_id = s1\n") [] [] []) } :=
  (comment_line_handling initSt { initSt with ex := some (Ex.mk "s1" [] [] []) }
    "# sent_id = s1\n" rfl).2.1 rfl (by decide)

theorem has_chinese_char_depends_only_on_words_witness :
    (Ex.mk "a" ["Hola"] [] []).words = (Ex.mk "b" ["Hola"] ["root"] [0]).words ∧
    has_chinese_char (Ex.mk "a" ["Hola"] [] []) =
      has_chinese_char (Ex.mk "b" ["Hola"] ["root"] [0]) :=
  ⟨rfl, has_chinese_char_depends_only_on_words _ _ rfl⟩

lemma runLines_append (s : St) (L1 L2 : List String) :
    runLines s (L1 ++ L2) =
      match runLines s L1 with
      | .ok s2 => runLines s2 L2
      | .error er => .error er := by
  induction L1 generalizing s with
  | nil => rfl
  | cons l rest ih =>
      show (match processLine s l with
            | .ok s2 => runLines s2 (rest ++ L2)
            | .error er => .error er) =
          match (match processLine s l with
                 | .ok s2 => runLines s2 rest
                 | .error er => .error er) with
          | .ok s2 => runLines s2 L2
          | .error er => .error er
      cases processLine s l with
      | ok s2 => exact ih s2
      | error er => rfl

lemma runLines_extra_blanks (s : St) (h : s.ex = none) (n : Nat) (L : List String) :
    runLines s (List.replicate n "\n" ++ L) = runLines s L := by
  induction n with
  | zero => rfl
  | succ m ih =>
      show (match processLine s "\n" with
            | .ok s2 => runLines s2 (List.replicate m "\n" ++ L)
            | .error er => .error er) = runLines s L
      rw [processLine_blank_none s h]
      exact ih

lemma get_word_data_len (line : String) (ex ex2 : Option Ex)
    (h : get_word_data line ex = .ok ex2)
    (hb : ∀ e, ex = some e →
      e.words.length = e.heads.length ∧ e.words.length = e.relns.length) :
    ∀ e, ex2 = some e →
      e.words.length = e.heads.length ∧ e.words.length = e.relns.length := by
  rcases get_word_data_ok_cases line ex ex2 h with h1 | ⟨e0, w, r, n, he, h2⟩
  · rw [h1]; exact hb
  · intro e he2
    rw [h2] at he2
    cases he2
    obtain ⟨l1, l2⟩ := hb e0 he
    refine ⟨?_, ?_⟩ <;> simp only [List.length_append, List.length_singleton] <;> omega

lemma processLine_inv (s s2 : St) (line : String) (hok : processLine s line = .ok s2)
    (h1 : ∀ e ∈ s.preprocessed_dataset,
      e.words.length = e.heads.length ∧ e.words.length = e.relns.length)
    (h2 : ∀ e, s.ex = some e →
      e.words.length = e.heads.length ∧ e.words.length = e.relns.length) :
    (∀ e ∈ s2.preprocessed_dataset,
      e.words.length = e.heads.length ∧ e.words.length = e.relns.length) ∧
    (∀ e, s2.ex = some e →
      e.words.length = e.heads.length ∧ e.words.length = e.relns.length) := by
  by_cases hne : line = "\n"
  · subst hne
    cases hx : s.ex with
    | none =>
        rw [processLine_blank_none s hx] at hok
        cases hok
        exact ⟨h1, h2⟩
    | some e =>
        rw [processLine_blank_some s e hx] at hok
        cases hb : has_chinese_char e with
        | false =>
            rw [hb] at hok
            rw [if_pos (show (!false) = true from rfl)] at hok
            cases hok
            refine ⟨?_, fun e' he' => by cases he'⟩
            intro e' he'
            rcases List.mem_append.mp he' with hm | hm
            · exact h1 e' hm
            · rw [List.mem_singleton] at hm
              cases hm
              exact h2 e hx
        | true =>
            rw [hb] at hok
            rw [if_neg (by decide)] at hok
            cases hok
            exact ⟨h1, fun e' he' => by cases he'⟩
  · cases hl : line.data with
    | nil =>
        unfold processLine at hok
        rw [if_neg hne, hl] at hok
        cases hok
    | cons c t =>
        by_cases hc : c = '#'
        · subst hc
          rw [processLine_comment s line t hl] at hok
          by_cases htxt : pySlice line 2 6 = "text"
          · rw [if_neg (not_not_intro htxt)] at hok
            cases hok
            exact ⟨h1, h2⟩
          · rw [if_pos htxt] at hok
            cases hok
            refine ⟨h1, fun e' he' => ?_⟩
            cases he'
            exact ⟨rfl, rfl⟩
        · by_cases hdig : c.isDigit = true
          · rw [processLine_digit s line c t hl hdig] at hok
            cases hg : get_word_data line s.ex with
            | ok ex2 =>
                rw [hg] at hok
                cases hok
                exact ⟨h1, get_word_data_len line s.ex ex2 hg h2⟩
            | error er => rw [hg] at hok; cases hok
          · rw [processLine_other s line c t hl hne hc hdig] at hok
            cases hok
            exact ⟨h1, h2⟩

lemma runLines_inv (L : List String) : ∀ (s s2 : St), runLines s L = .ok s2 →
    (∀ e ∈ s.preprocessed_dataset,
      e.words.length = e.heads.length ∧ e.words.length = e.relns.length) →
    (∀ e, s.ex = some e →
      e.words.length = e.heads.length ∧ e.words.length = e.relns.length) →
    (∀ e ∈ s2.preprocessed_dataset,
      e.words.length = e.heads.length ∧ e.words.length = e.relns.length) ∧
    (∀ e, s2.ex = some e →
      e.words.length = e.heads.length ∧ e.words.length = e.relns.length) := by
  induction L with
  | nil =>
      intro s s2 h h1 h2
      cases h
      exact ⟨h1, h2⟩
  | cons l rest ih =>
      intro s s2 h h1 h2
      unfold runLines at h
      cases hp : processLine s l with
      | ok s1 =>
          rw [hp] at h
          obtain ⟨g1, g2⟩ := processLine_inv s s1 l hp h1 h2
          exact ih s1 s2 h g1 g2
      | error er => rw [hp] at h; cases h

/-- C3: every record in the accumulated output, and the open record if
any, has `words`, `heads` and `relns` of equal length after running the
loop on any line list; hence every record that reaches finalization
(it is the open record of the state at the preceding blank line) and
every emitted record satisfies the alignment invariant. -/
theorem finalized_records_aligned (lines : List String) (s : St)
    (h : runLines initSt lines = .ok s) (e : Ex)
    (he : e ∈ s.preprocessed_dataset ∨ s.ex = some e) :
    e.words.length = e.heads.length ∧ e.words.length = e.relns.length := by
  obtain ⟨g1, g2⟩ := runLines_inv lines initSt s h
    (fun e' he' => absurd he' (List.not_mem_nil e'))
    (fun e' he' => by cases he')
  rcases he with hm | hx
  · exact g1 e hm
  · exact g2 e hx

theorem finalized_records_aligned_witness :
    (Ex.mk "s1" ["Hola"] ["root"] [0]).words.length =
      (Ex.mk "s1" ["Hola"] ["root"] [0]).heads.length ∧
    (Ex.mk "s1" ["Hola"] ["root"] [0]).words.length =
      (Ex.mk "s1" ["Hola"] ["root"] [0]).relns.length :=
  finalized_records_aligned
    ["# sent_id = s1\n", "1\tHola\t_\t_\t_\t_\t0\troot\t_\t_\n", "\n"]
    (St.mk 0 [Ex.mk "s1" ["Hola"] ["root"] [0]] none) rfl
    (Ex.mk "s1" ["Hola"] ["root"] [0]) (Or.inl (by simp))

/-- C5: inserting extra blank lines after a sentence-terminating blank
line never changes the output (a blank line with no open record is a
no-op and creates no empty record); concretely, two sentence blocks
separated by one blank line yield exactly two records, and separated
by three consecutive blank lines still yield exactly the same two. -/
theorem blank_line_separation_boundary :
    (∀ (L1 L2 : List String) (n : Nat),
       get_examples_from_dataset (L1 ++ "\n" :: (List.replicate n "\n" ++ L2)) =
       get_examples_from_dataset (L1 ++ "\n" :: L2)) ∧
    get_examples_from_dataset
      [ "# sent_id = a\n", "1\tHola\t_\t_\t_\t_\t0\troot\t_\t_\n", "\n",
        "# sent_id = b\n", "1\tChau\t_\t_\t_\t_\t0\troot\t_\t_\n", "\n" ] =
      .ok ([Ex.mk "a" ["Hola"] ["root"] [0], Ex.mk "b" ["Chau"] ["root"] [0]], 0) ∧
    get_examples_from_dataset
      [ "# sent_id = a\n", "1\tHola\t_\t_\t_\t_\t0\troot\t_\t_\n", "\n", "\n", "\n",
        "# sent_id = b\n", "1\tChau\t_\t_\t_\t_\t0\troot\t_\t_\n", "\n" ] =
      .ok ([Ex.mk "a" ["Hola"] ["root"] [0], Ex.mk "b" ["Chau"] ["root"] [0]], 0) := by
  refine ⟨?_, rfl, rfl⟩
  intro L1 L2 n
  unfold get_examples_from_dataset
  rw [runLines_append initSt L1, runLines_append initSt L1]
  cases hr : runLines initSt L1 with
  | error er => rfl
  | ok s =>
      have key : runLines s ("\n" :: (List.replicate n "\n" ++ L2)) =
          runLines s ("\n" :: L2) := by
        cases hx : s.ex with
        | none =>
            unfold runLines
            rw [processLine_blank_none s hx]
            exact runLines_extra_blanks s hx n L2
        | some e =>
            unfold runLines
            rw [processLine_blank_some s e hx]
            cases hb : has_chinese_char e with
            | false =>
                rw [if_pos (show (!false) = true from rfl)]
                exact runLines_extra_blanks _ rfl n L2
            | true =>
                rw [if_neg (show ¬((!true) = true) from by decide)]
                exact runLines_extra_blanks _ rfl n L2
      show (match runLines s ("\n" :: (List.replicate n "\n" ++ L2)) with
            | .ok s3 => Except.ok (s3.preprocessed_dataset, s3.filtered_examples)
            | .error er => Except.error er) =
          (match runLines s ("\n" :: L2) with
            | .ok s3 => Except.ok (s3.preprocessed_dataset, s3.filtered_examples)
            | .error er => Except.error er)
      rw [key]

/-- C6: a digit-initial line that does not split into exactly 10
tab-separated fields after stripping makes the run abort with
`ValueError` the moment it is reached, whatever lines follow; the
result of the whole stream is the error, so no output pair is
produced (no output file is written). -/
theorem malformed_token_line_aborts (L1 L2 : List String) (line : String) (s : St)
    (c : Char) (hrun : runLines initSt L1 = .ok s)
    (hd : line.data.head? = some c) (hdig : c.isDigit = true)
    (hlen : (pySplit '\t' (pyStrip line)).length ≠ 10) :
    get_examples_from_dataset (L1 ++ line :: L2) = .error .valueError := by
  obtain ⟨t, hl⟩ := data_head_cons line c hd
  have hstep : processLine s line = .error .valueError := by
    rw [processLine_digit s line c t hl hdig, get_word_data_not10 line s.ex hlen]
  unfold get_examples_from_dataset
  rw [runLines_append initSt L1 (line :: L2), hrun]
  show (match runLines s (line :: L2) with
        | .ok s3 => Except.ok (s3.preprocessed_dataset, s3.filtered_examples)
        | .error er => .error er) = .error .valueError
  unfold runLines
  rw [hstep]

theorem malformed_token_line_aborts_witness :
    get_examples_from_dataset ["1\tHola\n"] = .error .valueError :=
  malformed_token_line_aborts [] [] "1\tHola\n" initSt '1' rfl rfl (by decide) (by decide)

/-- C10: a sentence-identifier comment line arriving while a record is
open replaces it with the fresh empty record: the accumulated output
list and the filtered counter are left untouched, so the open record's
contents are silently dropped; concretely, two sentence-identifier
blocks with no blank line between them yield only the second record. -/
theorem reopen_discards_open_record :
    (∀ (s : St) (e : Ex) (line : String), s.ex = some e →
       line.data.head? = some '#' → pySlice line 2 6 ≠ "text" →
       processLine s line = .ok { s with ex := some (Ex.mk (commentId line) [] [] []) }) ∧
    get_examples_from_dataset
      [ "# sent_id = a\n", "1\tHola\t_\t_\t_\t_\t0\troot\t_\t_\n",
        "# sent_id = b\n", "1\tChau\t_\t_\t_\t_\t0\troot\t_\t_\n", "\n" ] =
      .ok ([Ex.mk "b" ["Chau"] ["root"] [0]], 0) := by
  refine ⟨?_, rfl⟩
  intro s e line hx hd htxt
  obtain ⟨t, hl⟩ := data_head_cons line '#' hd
  rw [processLine_comment s line t hl, if_pos htxt]

theorem reopen_discards_open_record_witness :
    processLine (St.mk 0 [] (some (Ex.mk "a" ["Hola"] ["root"] [0]))) "# sent_id = b\n" =
      .ok (St.mk 0 [] (some (Ex.mk "b" [] [] []))) :=
  reopen_discards_open_record.1 (St.mk 0 [] (some (Ex.mk "a" ["Hola"] ["root"] [0])))
    (Ex.mk "a" ["Hola"] ["root"] [0]) "# sent_id = b\n" rfl rfl (by decide)

/-- C1 counterexample: on the exact section 8 input (no trailing blank
line) the code reports a filtered count of 0, not the claimed 1: the
record for s2, still open at stream exhaustion, is never handed to the
filter or counted. -/
theorem section8_filtered_count_not_one :
    get_examples_from_dataset section8Lines = .ok ([s1Record], 0) ∧ (0 : Nat) ≠ 1 :=
  ⟨rfl, by decide⟩

/-- C1 amended: a record still open when the stream is exhausted is
silently discarded, not finalized: the output is exactly the records
and count accumulated at the blank lines. The section 8 input hence
yields the accepted s1 record with a filtered count of 0; only when a
trailing blank line is present is s2 filtered and the count 1. -/
theorem open_record_at_exhaustion_discarded :
    (∀ (lines : List String) (s : St) (e : Ex),
       runLines initSt lines = .ok s → s.ex = some e →
       get_examples_from_dataset lines = .ok (s.preprocessed_dataset, s.filtered_examples)) ∧
    get_examples_from_dataset section8Lines = .ok ([s1Record], 0) ∧
    get_examples_from_dataset (section8Lines ++ ["\n"]) = .ok ([s1Record], 1) := by
  refine ⟨?_, rfl, rfl⟩
  intro lines s e hrun _
  unfold get_examples_from_dataset
  rw [hrun]

theorem open_record_at_exhaustion_discarded_witness :
    get_examples_from_dataset ["# sent_id = a\n"] = .ok ([], 0) :=
  open_record_at_exhaustion_discarded.1 ["# sent_id = a\n"]
    (St.mk 0 [] (some (Ex.mk "a" [] [] []))) (Ex.mk "a" [] [] []) rfl rfl

end GSD
